import Mathlib

/-!
Verification development for the flask-server of the voice-google-calendar-handler
repository. The two source files, calendar_agent.py and server.py, are shallowly
embedded below: pure parsing helpers become Lean functions on strings, the
Playwright-facing operations become functions over an explicit environment that
records the outcome of each external interaction, and the session-initialization
control flow becomes a function from an abstract launch environment to a result
plus an observable trace (number of browser launches, cookie injections, profile
wipes).

Modelling conventions:
  - Python datetime values are modelled as a day index (days since an arbitrary
    epoch) plus hour and minute; calendar rendering of dates (%Y-%m-%d, %b %d, %Y)
    is modelled as the day index rendered in decimal, an equivalent unambiguous
    absolute encoding, since no claim depends on the concrete calendar text.
  - The external dateparser library is modelled on the sublanguage of expressions
    this program actually generates: an optional day word (today / tomorrow)
    followed by a clock time H[:MM][am|pm], a bare clock time, a bare day word,
    a next-weekday phrase, and absolute timestamps. Bare digit tokens are read
    as 24-hour clock hours. PREFER_DATES_FROM=future is modelled as: a bare
    clock time resolves to the base day when it is strictly later than the base
    instant, else to the next day; explicit day words pin the day.
  - Regex searches are implemented as leftmost scans with the same greedy or
    lazy backtracking order as the source patterns, over lists of characters.
-/

namespace VGCH

/-- Model of a Python datetime: day index since an epoch, hour, minute. -/
structure PyDateTime where
  day : Nat
  hour : Nat
  minute : Nat
deriving Repr, DecidableEq

/-- Total minutes since the epoch, the order Python datetime comparison uses. -/
def PyDateTime.toMinutes (d : PyDateTime) : Nat :=
  d.day * 1440 + d.hour * 60 + d.minute

/-- Minutes within the day, ignoring the day index. -/
def PyDateTime.clockMinutes (d : PyDateTime) : Nat :=
  d.hour * 60 + d.minute

/-- Rebuild a datetime from total minutes since the epoch. -/
def PyDateTime.ofMinutes (m : Nat) : PyDateTime :=
  ⟨m / 1440, m % 1440 / 60, m % 60⟩

/-- Python timedelta(hours=n) addition. -/
def PyDateTime.addHours (d : PyDateTime) (n : Nat) : PyDateTime :=
  PyDateTime.ofMinutes (d.toMinutes + n * 60)

/-- Python timedelta(days=1) addition, keeping the clock time. -/
def PyDateTime.nextDay (d : PyDateTime) : PyDateTime :=
  ⟨d.day + 1, d.hour, d.minute⟩

/-- Word character for the regex \b boundary and \w class (ASCII subset). -/
def isWordChar (c : Char) : Bool :=
  c.isAlphanum || c = '_'

/-- Lowercasing of a character list, modelling Python str.lower on the ASCII
range (the only range the matched keywords use; CJK characters are fixed
points of lowercasing in both systems). -/
def lowerChars (cs : List Char) : List Char :=
  cs.map Char.toLower

/-- Whether the first list is a prefix of the second. -/
def listHasPrefix : List Char → List Char → Bool
  | [], _ => true
  | _ :: _, [] => false
  | a :: as, b :: bs => a = b && listHasPrefix as bs

/-- Whether the first list occurs as a contiguous sublist of the second. -/
def listHasSub (needle : List Char) : List Char → Bool
  | [] => needle.isEmpty
  | c :: cs => listHasPrefix needle (c :: cs) || listHasSub needle cs

/-- Substring containment, modelling the Python membership operator on strings. -/
def containsSub (needle : String) (hay : String) : Bool :=
  listHasSub needle.toList hay.toList

/-- Split a character list on whitespace, dropping empty fragments. -/
def splitWsAux : List Char → List Char → List (List Char)
  | acc, [] => if acc.isEmpty then [] else [acc.reverse]
  | acc, c :: cs =>
    if c.isWhitespace then
      if acc.isEmpty then splitWsAux [] cs else acc.reverse :: splitWsAux [] cs
    else
      splitWsAux (c :: acc) cs

/-- Whitespace tokenisation of a string. -/
def wsTokens (s : String) : List (List Char) :=
  splitWsAux [] s.toList

/-- Drop leading whitespace characters. -/
def dropWs : List Char → List Char
  | [] => []
  | c :: cs => if c.isWhitespace then dropWs cs else c :: cs

/-- Python str.strip: drop leading and trailing whitespace. -/
def pyStrip (s : String) : String :=
  String.mk ((dropWs ((dropWs s.toList).reverse)).reverse)

/-- Decimal digits of a character list read as a number, when all are digits. -/
def digitsToNat : List Char → Option Nat
  | [] => none
  | cs =>
    if cs.all Char.isDigit then
      some (cs.foldl (fun n c => n * 10 + (c.toNat - 48)) 0)
    else
      none

/-- Meridiem marker: false for am, true for pm. -/
abbrev Mer := Bool

/-- Apply a 12-hour meridiem to an hour the way the source and dateparser do:
pm adds 12 below 12, am maps 12 to 0. -/
def applyMer (hour : Nat) : Option Mer → Nat
  | none => hour
  | some mer =>
    if mer then (if hour < 12 then hour + 12 else hour)
    else (if hour = 12 then 0 else hour)

/-- Take a maximal run of decimal digits from the front of a list. -/
def takeDigitRun : List Char → List Char × List Char
  | [] => ([], [])
  | c :: cs =>
    if c.isDigit then
      let r := takeDigitRun cs
      (c :: r.1, r.2)
    else
      ([], c :: cs)

/-- Parse a single clock token of the shape H[:MM][am|pm], entirely consuming
it, into (hour-before-meridiem, minute, meridiem). -/
def parseClockTok (cs : List Char) : Option (Nat × Nat × Option Mer) :=
  let d := takeDigitRun cs
  match digitsToNat d.1 with
  | none => none
  | some h =>
    let afterColon : Option (Nat × List Char) :=
      match d.2 with
      | ':' :: rest =>
        let m := takeDigitRun rest
        match digitsToNat m.1 with
        | some mv => some (mv, m.2)
        | none => none
      | rest => some (0, rest)
    match afterColon with
    | none => none
    | some (mv, rest) =>
      match rest with
      | [] => some (h, mv, none)
      | ['a', 'm'] => some (h, mv, some false)
      | ['p', 'm'] => some (h, mv, some true)
      | _ => none

/-- Resolve a clock reading with PREFER_DATES_FROM=future relative to base:
keep the base day when the clock is strictly in the future on that day,
otherwise move to the next day. -/
def resolveClockFuture (base : PyDateTime) (h m : Nat) : PyDateTime :=
  if base.clockMinutes < h * 60 + m then ⟨base.day, h, m⟩ else ⟨base.day + 1, h, m⟩

/-- Weekday index of a modelled date; day 0 of the epoch is taken as a Monday. -/
def weekdayOf (day : Nat) : Nat := day % 7

/-- Weekday names recognised by the modelled dateparser. -/
def weekdayIndex : List Char → Option Nat
  | cs =>
    if cs = "monday".toList then some 0
    else if cs = "tuesday".toList then some 1
    else if cs = "wednesday".toList then some 2
    else if cs = "thursday".toList then some 3
    else if cs = "friday".toList then some 4
    else if cs = "saturday".toList then some 5
    else if cs = "sunday".toList then some 6
    else none

/-- Days until the next strictly-future occurrence of a target weekday. -/
def daysUntilNext (fromDay target : Nat) : Nat :=
  let d := (target + 7 - weekdayOf fromDay) % 7
  if d = 0 then 7 else d

/-- Modelled from the behaviour of the external dateparser library on the
sublanguage of expressions this program generates, with settings
RELATIVE_BASE=base and PREFER_DATES_FROM=future. Absolute timestamps are
modelled as an at-sign followed by total minutes since the epoch. Unmodelled
expressions yield none, matching a dateparser failure. -/
def dateparserParse (base : PyDateTime) (s : String) : Option PyDateTime :=
  match wsTokens (String.mk (lowerChars s.toList)) with
  | [['@'] ] => none
  | ['@' :: ds] =>
    match digitsToNat ds with
    | some n => some (PyDateTime.ofMinutes n)
    | none => none
  | [t] =>
    if t = "today".toList then some base
    else if t = "tomorrow".toList then some base.nextDay
    else
      match parseClockTok t with
      | some (h, m, mer) =>
        let hh := applyMer h mer
        if hh ≤ 23 ∧ m ≤ 59 then some (resolveClockFuture base hh m) else none
      | none => none
  | [t1, t2] =>
    if t1 = "next".toList then
      match weekdayIndex t2 with
      | some w => some ⟨base.day + daysUntilNext base.day w, base.hour, base.minute⟩
      | none => none
    else if t1 = "today".toList ∨ t1 = "tomorrow".toList then
      match parseClockTok t2 with
      | some (h, m, mer) =>
        let hh := applyMer h mer
        if hh ≤ 23 ∧ m ≤ 59 then
          some ⟨(if t1 = "tomorrow".toList then base.day + 1 else base.day), hh, m⟩
        else none
      | none => none
    else
      match parseClockTok t1, t2 with
      | some (h, m, none), ['a', 'm'] =>
        let hh := applyMer h (some false)
        if hh ≤ 23 ∧ m ≤ 59 then some (resolveClockFuture base hh m) else none
      | some (h, m, none), ['p', 'm'] =>
        let hh := applyMer h (some true)
        if hh ≤ 23 ∧ m ≤ 59 then some (resolveClockFuture base hh m) else none
      | _, _ => none
  | [t1, t2, t3] =>
    if t1 = "today".toList ∨ t1 = "tomorrow".toList then
      let dday := if t1 = "tomorrow".toList then base.day + 1 else base.day
      match parseClockTok t2, t3 with
      | some (h, m, none), ['a', 'm'] =>
        let hh := applyMer h (some false)
        if hh ≤ 23 ∧ m ≤ 59 then some ⟨dday, hh, m⟩ else none
      | some (h, m, none), ['p', 'm'] =>
        let hh := applyMer h (some true)
        if hh ≤ 23 ∧ m ≤ 59 then some ⟨dday, hh, m⟩ else none
      | _, _ => none
    else none
  | _ => none

/-- First successful application of f over a list, in order; models the
preference order of regex backtracking across candidate splits. -/
def firstSome {α β : Type} : List α → (α → Option β) → Option β
  | [], _ => none
  | a :: as, f =>
    match f a with
    | some b => some b
    | none => firstSome as f

/-- Case-insensitive literal match at the head: pat is given in lowercase;
returns the remainder on success. -/
def hasPrefixCI (pat : List Char) (cs : List Char) : Option (List Char) :=
  match pat, cs with
  | [], rest => some rest
  | _ :: _, [] => none
  | p :: ps, c :: cs2 => if Char.toLower c = p then hasPrefixCI ps cs2 else none

/-- Case-insensitive substring containment, modelling re.search of a literal
with the IGNORECASE flag. -/
def containsSubCI (needle : String) (hay : String) : Bool :=
  listHasSub (lowerChars needle.toList) (lowerChars hay.toList)

/-- Maximal run of whitespace at the head. -/
def takeSpacesRun : List Char → List Char × List Char
  | [] => ([], [])
  | c :: cs =>
    if c.isWhitespace then
      let r := takeSpacesRun cs
      (c :: r.1, r.2)
    else
      ([], c :: cs)

/-- Greedy one-or-more whitespace: requires at least one whitespace character
and consumes the maximal run (the following regex constructs in the source
patterns never match whitespace, so no backtracking is observable). -/
def dropSpaces1 (cs : List Char) : Option (List Char) :=
  let r := takeSpacesRun cs
  if r.1.isEmpty then none else some r.2

/-- Greedy zero-or-more whitespace. -/
def dropSpaces0 (cs : List Char) : List Char :=
  (takeSpacesRun cs).2

/-- Word-boundary check for a pattern whose first character is a word
character: the previous character must be absent or a non-word character. -/
def wordBoundaryOk : Option Char → Bool
  | none => true
  | some c => !isWordChar c

/-- Leftmost-match scan: try the position matcher at every position from the
left, tracking the previous character for word-boundary tests. -/
def scanA {β : Type} (f : Option Char → List Char → Option β) :
    Option Char → List Char → Option β
  | prev, [] => f prev []
  | prev, c :: cs =>
    match f prev (c :: cs) with
    | some r => some r
    | none => scanA f (some c) cs

/-- Candidate splits for the regex piece [0-9]{1,2}, greedy order. -/
def digitCands : List Char → List (List Char × List Char)
  | c1 :: c2 :: rest =>
    if c1.isDigit then
      if c2.isDigit then [([c1, c2], rest), ([c1], c2 :: rest)]
      else [([c1], c2 :: rest)]
    else []
  | [c1] => if c1.isDigit then [([c1], [])] else []
  | [] => []

/-- Candidate splits for the optional regex piece (?::[0-9]{2})?, greedy. -/
def colonCands : List Char → List (List Char × List Char)
  | ':' :: a :: b :: rest =>
    if a.isDigit && b.isDigit then
      [([':', a, b], rest), ([], ':' :: a :: b :: rest)]
    else
      [([], ':' :: a :: b :: rest)]
  | cs => [([], cs)]

/-- Candidate splits for the greedy piece \s*: maximal run first, then each
shorter prefix of the run, down to none. -/
def spaceCandsFrom : List Char → List Char → List (List Char × List Char)
  | taken, rest => (taken.reverse, rest) ::
    match taken with
    | [] => []
    | t :: ts => spaceCandsFrom ts (t :: rest)

/-- Entry point for the \s* candidate enumeration. -/
def spaceCands (cs : List Char) : List (List Char × List Char) :=
  let r := takeSpacesRun cs
  spaceCandsFrom r.1.reverse r.2

/-- Candidate splits for the optional piece (?:am|pm)?, case-insensitive,
greedy order: the taken alternative first. -/
def merCands (cs : List Char) : List (List Char × List Char) :=
  match cs with
  | a :: b :: rest =>
    if (Char.toLower a = 'a' ∨ Char.toLower a = 'p') ∧ Char.toLower b = 'm' then
      [([a, b], rest), ([], cs)]
    else
      [([], cs)]
  | _ => [([], cs)]

/-- Required (am|pm) piece, case-insensitive. -/
def merRequired (cs : List Char) : List (List Char × List Char) :=
  match cs with
  | a :: b :: rest =>
    if (Char.toLower a = 'a' ∨ Char.toLower a = 'p') ∧ Char.toLower b = 'm' then
      [([a, b], rest)]
    else
      []
  | _ => []

/-- Candidate matches, in regex backtracking order, of the time group
[0-9]{1,2}(?::[0-9]{2})?\s*(?:am|pm)? used by the window and at-time
patterns; each candidate is the consumed text and the remainder. -/
def timeGroupCands (cs : List Char) : List (List Char × List Char) :=
  (digitCands cs).flatMap fun dc =>
    (colonCands dc.2).flatMap fun cc =>
      (spaceCands cc.2).flatMap fun sc =>
        (merCands sc.2).map fun mc =>
          (dc.1 ++ cc.1 ++ sc.1 ++ mc.1, mc.2)

/-- Variant of the time group with a required meridiem, as in the first
pattern of the source helper that extracts a bare time. -/
def timeGroupMerCands (cs : List Char) : List (List Char × List Char) :=
  (digitCands cs).flatMap fun dc =>
    (colonCands dc.2).flatMap fun cc =>
      (spaceCands cc.2).flatMap fun sc =>
        (merRequired sc.2).map fun mc =>
          (dc.1 ++ cc.1 ++ sc.1 ++ mc.1, mc.2)

/-- The separator piece \s+(?:to|-)\s+ of the window patterns. -/
def matchWindowSep (cs : List Char) : Option (List Char) :=
  match dropSpaces1 cs with
  | none => none
  | some r =>
    let afterSep : Option (List Char) :=
      match hasPrefixCI "to".toList r with
      | some r2 => some r2
      | none =>
        match r with
        | '-' :: r2 => some r2
        | _ => none
    match afterSep with
    | none => none
    | some r2 => dropSpaces1 r2

/-- Shared tail of both window patterns: time group, separator, time group;
returns the two captured group strings. -/
def matchWindowCore (cs : List Char) : Option (String × String) :=
  firstSome (timeGroupCands cs) fun gc =>
    match matchWindowSep gc.2 with
    | none => none
    | some r =>
      match timeGroupCands r with
      | g2 :: _ => some (String.mk gc.1, String.mk g2.1)
      | [] => none

/-- Position matcher for the first window pattern, \bfrom\s+(T)\s+(?:to|-)\s+(T). -/
def tryWindowFromAt (prev : Option Char) (cs : List Char) : Option (String × String) :=
  if wordBoundaryOk prev then
    match hasPrefixCI "from".toList cs with
    | some r =>
      match dropSpaces1 r with
      | some r2 => matchWindowCore r2
      | none => none
    | none => none
  else none

/-- Position matcher for the second window pattern, \b(T)\s+(?:to|-)\s+(T). -/
def tryWindowBareAt (prev : Option Char) (cs : List Char) : Option (String × String) :=
  if wordBoundaryOk prev then matchWindowCore cs else none

/-- The explicit-window search of the intent parser: the from-pattern is tried
over the whole text first, then the bare pattern, mirroring the source loop
that breaks at the first pattern with a match. -/
def findWindow (s : String) : Option (String × String) :=
  match scanA tryWindowFromAt none s.toList with
  | some r => some r
  | none => scanA tryWindowBareAt none s.toList

/-- Position matcher for \bat\s+(T): a lone at-word followed by a time group. -/
def tryAtTimeAt (prev : Option Char) (cs : List Char) : Option String :=
  if wordBoundaryOk prev then
    match hasPrefixCI "at".toList cs with
    | some r =>
      match dropSpaces1 r with
      | some r2 =>
        match timeGroupCands r2 with
        | g :: _ => some (String.mk g.1)
        | [] => none
      | none => none
    | none => none
  else none

/-- The single-time search of the intent parser. -/
def findAtTime (s : String) : Option String :=
  scanA tryAtTimeAt none s.toList

/-- The duration unit alternation (hour|hours|hr|hrs): a match needs only the
alternative to be present at the position, nothing after it is constrained. -/
def matchHourUnit (cs : List Char) : Bool :=
  (hasPrefixCI "hour".toList cs).isSome || (hasPrefixCI "hr".toList cs).isSome

/-- Position matcher for for\s+(\d+)\s*(hour|hours|hr|hrs). -/
def tryDurationAt (_prev : Option Char) (cs : List Char) : Option Nat :=
  match hasPrefixCI "for".toList cs with
  | some r =>
    match dropSpaces1 r with
    | some r2 =>
      let d := takeDigitRun r2
      match digitsToNat d.1 with
      | some n => if matchHourUnit (dropSpaces0 d.2) then some n else none
      | none => none
    | none => none
  | none => none

/-- The duration search of the intent parser. -/
def findDuration (s : String) : Option Nat :=
  scanA tryDurationAt none s.toList

/-- Candidates for the optional article piece (?:an?\s+)? of the title
pattern, in greedy order: an, a, then nothing. -/
def articleCands (cs : List Char) : List (List Char) :=
  let withAn :=
    match hasPrefixCI "an".toList cs with
    | some r => (dropSpaces1 r).toList
    | none => []
  let withA :=
    match hasPrefixCI "a".toList cs with
    | some r => (dropSpaces1 r).toList
    | none => []
  withAn ++ withA ++ [cs]

/-- Candidates for the optional piece (?:called\s+)? of the title pattern. -/
def calledCands (cs : List Char) : List (List Char) :=
  let withCalled :=
    match hasPrefixCI "called".toList cs with
    | some r => (dropSpaces1 r).toList
    | none => []
  withCalled ++ [cs]

/-- Completion test after the lazy capture of the title pattern. The pattern
tail is (?:\s+(?:at|on|tomorrow|today))? followed by the pattern end; the
group is optional and the pattern is unanchored, so every position admits
completing the match. -/
def titleTailOk (_rest : List Char) : Bool :=
  true

/-- The lazy capture ([^,]*?) of the title pattern: the shortest comma-free
prefix after which the pattern tail can complete. Because the tail is fully
optional, this is always the empty capture. -/
def lazyTitleCapture : List Char → List Char → Option (List Char)
  | acc, rest =>
    if titleTailOk rest then
      some acc.reverse
    else
      match rest with
      | [] => none
      | c :: cs => if c = ',' then none else lazyTitleCapture (c :: acc) cs

/-- Position matcher for the title pattern
(?:create|add|schedule)\s+(?:an?\s+)?event\s+(?:called\s+)?([^,]*?)(?:\s+(?:at|on|tomorrow|today))?. -/
def tryTitleAt (_prev : Option Char) (cs : List Char) : Option (List Char) :=
  let afterKeyword : Option (List Char) :=
    match hasPrefixCI "create".toList cs with
    | some r => some r
    | none =>
      match hasPrefixCI "add".toList cs with
      | some r => some r
      | none => hasPrefixCI "schedule".toList cs
  match afterKeyword with
  | none => none
  | some r1 =>
    match dropSpaces1 r1 with
    | none => none
    | some r2 =>
      firstSome (articleCands r2) fun r3 =>
        match hasPrefixCI "event".toList r3 with
        | none => none
        | some r4 =>
          match dropSpaces1 r4 with
          | none => none
          | some r5 =>
            firstSome (calledCands r5) fun r6 =>
              lazyTitleCapture [] r6

/-- The title extractor of the source: regex search, strip the capture, fall
back to the default name when the capture strips to nothing or the pattern
does not match. The search is case-insensitive; the capture is built from the
lowercased scan, which is observationally equal because the capture is
provably empty whenever the pattern matches. -/
def extract_title (command : String) : String :=
  match scanA tryTitleAt none (lowerChars command.toList) with
  | some cap =>
    let t := pyStrip (String.mk cap)
    if t ≠ "" then t else "Untitled Event"
  | none => "Untitled Event"

/-- Position matcher for the first fallback time pattern
(?:at\s+)?(\d{1,2}(?::\d{2})?\s*(?:AM|PM|am|pm)): the optional at-prefix does
not change the captured group, so the scan looks for the group directly. -/
def tryBareTimeAt (_prev : Option Char) (cs : List Char) : Option String :=
  match timeGroupMerCands cs with
  | g :: _ => some (String.mk g.1)
  | [] => none

/-- Position matcher for (next\s+\w+day): the greedy word run backtracks to
the largest split whose next three characters read day. -/
def tryNextWeekdayAt (_prev : Option Char) (cs : List Char) : Option String :=
  match hasPrefixCI "next".toList cs with
  | none => none
  | some r =>
    match dropSpaces1 r with
    | none => none
    | some r2 =>
      let w := (r2.takeWhile isWordChar)
      let js := ((List.range w.length).filter fun j =>
        1 ≤ j ∧ listHasPrefix "day".toList (lowerChars (w.drop j))).reverse
      match js with
      | j :: _ => some ("next " ++ String.mk (w.take (j + 3)))
      | [] => none

/-- The bare-time heuristic of the source: a clock time with a required
meridiem, else the literal day words, else a next-weekday phrase, else the
default 2:00 PM. Captured text is reported lowercased with collapsed
whitespace, which the downstream date parsing cannot observe. -/
def extract_time (command : String) : String :=
  match scanA tryBareTimeAt none command.toList with
  | some g => g
  | none =>
    if containsSubCI "tomorrow" command then "tomorrow"
    else if containsSubCI "today" command then "today"
    else
      match scanA tryNextWeekdayAt none command.toList with
      | some g => g
      | none => "2:00 PM"

/-- Position matcher for the numeric time pattern
(\d{1,2})(?::(\d{2}))?\s*(am|pm)? of the window heuristic: every piece after
the digits is optional and the pattern ends there, so the greedy first
candidate wins deterministically. -/
def tryNumTimeAt (_prev : Option Char) (cs : List Char) : Option (Nat × Nat × Option Mer) :=
  match digitCands cs with
  | [] => none
  | dc :: _ =>
    match digitsToNat dc.1 with
    | none => none
    | some h =>
      let afterColon :=
        match colonCands dc.2 with
        | (taken, rest) :: _ =>
          (match taken with
            | _ :: a :: b :: _ => (digitsToNat [a, b]).getD 0
            | _ => 0, rest)
        | [] => (0, dc.2)
      let r2 := dropSpaces0 afterColon.2
      match merCands r2 with
      | (m, _) :: _ =>
        if m.isEmpty then some (h, afterColon.1, none)
        else some (h, afterColon.1, some (Char.toLower (m.headD 'a') = 'p'))
      | [] => some (h, afterColon.1, none)

/-- Position matcher for the bare duration pattern (\d+)\s*(hour|hours|hr|hrs)
of the window heuristic. -/
def tryBareDurationAt (_prev : Option Char) (cs : List Char) : Option Nat :=
  let d := takeDigitRun cs
  match digitsToNat d.1 with
  | some n => if matchHourUnit (dropSpaces0 d.2) then some n else none
  | none => none

/-- Render a modelled datetime the way the source renders %Y-%m-%d %H:%M: an
unambiguous absolute timestamp, here the total minutes since the epoch behind
an at-sign marker. -/
def strftimeStamp (d : PyDateTime) : String :=
  "@" ++ toString d.toMinutes

/-- The window heuristic of the source: a numeric time (meridiem applied as in
the source), a day shift for the literal word tomorrow, an optional duration
that yields an end time, else delegation to the bare-time heuristic. The
source reads the current time again inside this helper; both reads are
modelled as the same instant now. -/
def extract_time_window (now : PyDateTime) (command : String) : String × Option String :=
  let lower := String.mk (lowerChars command.toList)
  let day_token :=
    if containsSub "tomorrow" lower then "tomorrow"
    else if containsSub "today" lower then "today"
    else ""
  match scanA tryNumTimeAt none command.toList with
  | some (h0, m0, mer) =>
    let hour := applyMer h0 mer
    let base_day := if day_token = "tomorrow" then now.day + 1 else now.day
    let start_dt : PyDateTime := ⟨base_day, hour, m0⟩
    match scanA tryBareDurationAt none command.toList with
    | some n => (strftimeStamp start_dt, some (strftimeStamp (start_dt.addHours n)))
    | none => (strftimeStamp start_dt, none)
  | none => (extract_time command, none)

/-- The normalized intent record produced by the parser. -/
structure Intent where
  title : String
  start : PyDateTime
  end_ : Option PyDateTime
deriving Repr, DecidableEq

/-- The day-hint detection of the parser. -/
def dayHintOf (lower : String) : String :=
  if containsSub "tomorrow" lower then "tomorrow"
  else if containsSub "today" lower then "today"
  else ""

/-- Lowercasing of a whole string. -/
def lowerStr (s : String) : String :=
  String.mk (lowerChars s.toList)

/-- The stripped, lowercased text the parser searches. -/
def loweredText (command : String) : String :=
  lowerStr (pyStrip command)

/-- The day-hint prefix prepended to extracted time phrases. -/
def hintPrefix (lower : String) : String :=
  if dayHintOf lower ≠ "" then dayHintOf lower ++ " " else ""

/-- The layered free-text intent parser of the source: explicit window, then
single time with optional duration, then the window heuristic fallback; a
parse failure of the start is the only error. -/
def parse_command (base : PyDateTime) (command : String) : Except String Intent :=
  let lower := loweredText command
  let title := extract_title command
  let window := findWindow lower
  let time_phrase := findAtTime lower
  let duration_hours := findDuration lower
  let pfx := hintPrefix lower
  let s0 : Option PyDateTime × Option PyDateTime :=
    match window with
    | some (e1, e2) =>
      (dateparserParse base (pfx ++ e1), dateparserParse base (pfx ++ e2))
    | none =>
      match time_phrase with
      | some tp =>
        match dateparserParse base (pfx ++ tp) with
        | some st =>
          (some st,
            match duration_hours with
            | some n => some (st.addHours n)
            | none => none)
        | none => (none, none)
      | none => (none, none)
  let s1 : Option PyDateTime × Option PyDateTime :=
    match s0.1 with
    | some _ => s0
    | none =>
      let fb := extract_time_window base command
      (dateparserParse base fb.1,
        match fb.2 with
        | some e => dateparserParse base e
        | none => none)
  match s1.1 with
  | none => Except.error "Could not determine start time from your command."
  | some st => Except.ok ⟨title, st, s1.2⟩

/-- A value passed to the event-creation operation as a start or end time: the
call sites pass either a datetime or a raw string. -/
inductive TimeVal where
  | dt (d : PyDateTime)
  | str (s : String)
deriving Repr, DecidableEq

/-- Python truthiness of a time value: datetimes are always truthy, strings
are truthy when nonempty. -/
def truthyVal : TimeVal → Bool
  | .dt _ => true
  | .str s => s ≠ ""

/-- Two-digit rendering of minutes. -/
def twoDigits (n : Nat) : String :=
  if n < 10 then "0" ++ toString n else toString n

/-- The strftime %b %d, %Y %I:%M %p rendering of the source, with the
calendar date part modelled as the decimal day index. -/
def strftimeDisplay (d : PyDateTime) : String :=
  let h12 := if d.hour % 12 = 0 then 12 else d.hour % 12
  let suffix := if d.hour < 12 then "AM" else "PM"
  "D" ++ toString d.day ++ ", " ++ toString h12 ++ ":" ++ twoDigits d.minute ++ " " ++ suffix

/-- The datetime-to-UI-text formatter of the source: datetimes are rendered
directly; strings are first given to dateparser (relative to the real current
time, passed here as now) and rendered when that succeeds, else passed
through verbatim. -/
def format_datetime_for_input (now : PyDateTime) (v : TimeVal) : String :=
  match v with
  | .dt d => strftimeDisplay d
  | .str s =>
    match dateparserParse now s with
    | some d => strftimeDisplay d
    | none => s

/-- An on-page event marker: visible text and the data-eventid attribute. -/
structure EventEl where
  title : String
  id : String
deriving Repr, DecidableEq

/-- The display-formatted event record returned by the creation operation. -/
structure EventOut where
  title : String
  start : String
  end_ : Option String
  description : String
deriving Repr, DecidableEq

/-- Tagged outcome of the agent operations, mirroring the result dictionaries
of the source: status error, status success with an event, status success
with an event list and count, or status unsupported. -/
inductive CmdResult where
  | error (message : String)
  | created (message : String) (event : EventOut)
  | events (evs : List EventEl) (count : Nat)
  | unsupported (message : String)
deriving Repr, DecidableEq

/-- Whether a result carries status error. -/
def CmdResult.isError : CmdResult → Bool
  | .error _ => true
  | _ => false

/-- The environment of one agent operation: whether a page handle exists,
whether the session probed as authenticated, the current time, whether the
localized create-button locator click succeeds within its timeout, and the
event markers that render on the page within the wait bound. -/
structure ExecEnv where
  hasPage : Bool
  is_authenticated : Bool
  now : PyDateTime
  clickOk : Bool
  pageEvents : List EventEl
deriving Repr, DecidableEq

/-- The event-creation operation of the source. Opening the creation dialog
is attempted and its outcome logged, but the outcome is never consulted: the
result is a success record built from the formatted inputs whenever the
session is ready. -/
def create_event (env : ExecEnv) (title : String) (start_time : TimeVal)
    (end_time : Option TimeVal) (description : String) : CmdResult :=
  if !env.hasPage || !env.is_authenticated then
    .error "Calendar not authenticated or initialized."
  else
    let _opened := env.clickOk
    .created ("Event " ++ title ++ " created successfully")
      ⟨title, format_datetime_for_input env.now start_time,
        (match end_time with
          | some v =>
            if truthyVal v then some (format_datetime_for_input env.now v) else none
          | none => none),
        description⟩

/-- The today-listing operation of the source: the wait for an event marker
succeeds exactly when at least one marker renders within the bound; a wait
timeout is caught and reported as an error result. -/
def get_today_events (env : ExecEnv) : CmdResult :=
  if !env.hasPage || !env.is_authenticated then
    .error "Calendar not authenticated or initialized."
  else if env.pageEvents.isEmpty then
    .error "Failed to retrieve events: Timeout 5000ms exceeded"
  else
    .events env.pageEvents env.pageEvents.length

/-- The creation branch of the voice-command dispatcher: local parse, then
event creation from the parsed intent. -/
def creation_path (env : ExecEnv) (command : String) : CmdResult :=
  match parse_command env.now command with
  | .error e => .error e
  | .ok it =>
    create_event env it.title (.dt it.start) (it.end_.map TimeVal.dt) ""

/-- The voice-command dispatcher of the source: keyword routing with the
creation keywords tested first, then the read keywords, else unsupported. -/
def process_voice_command (env : ExecEnv) (command : String) : CmdResult :=
  if !env.hasPage || !env.is_authenticated then
    .error "Calendar not initialized or not authenticated."
  else
    let command_lower := lowerStr command
    if containsSub "create" command_lower || containsSub "add" command_lower
        || containsSub "schedule" command_lower || containsSub "日程" command_lower then
      creation_path env command
    else if containsSub "show" command_lower || containsSub "view" command_lower
        || containsSub "today" command_lower then
      get_today_events env
    else
      .unsupported ("Command not recognized: " ++ command)

/-- A structured payload as decoded from JSON; absent and null keys are both
modelled as none, string values as some. -/
structure Payload where
  title : Option String
  start : Option String
  end_ : Option String
  description : Option String
deriving Repr, DecidableEq

/-- The Python expression x or d for an optional string x: the default is
taken when the key is absent, null, or the empty string. -/
def pyOrStr : Option String → String → String
  | some s, d => if s = "" then d else s
  | none, d => d

/-- The structured-command operation of the source: title defaults, start is
required and checked for truthiness, description defaults to the empty
string, then the creation operation runs. -/
def process_structured_command (env : ExecEnv) (p : Payload) : CmdResult :=
  if !env.hasPage || !env.is_authenticated then
    .error "Calendar not initialized or not authenticated."
  else
    let title := pyOrStr p.title "Untitled Event"
    let description := p.description.getD ""
    match p.start with
    | none => .error "Missing required field: start"
    | some s =>
      if s = "" then .error "Missing required field: start"
      else create_event env title (.str s) (p.end_.map TimeVal.str) description

/-- The outcome of the external parse adapter as the route handler sees it:
the decoded JSON dictionary, with an error key set to the exception text when
any failure (network error, bad status, undecodable JSON) occurred. -/
structure OllamaPayload where
  error : Option String
  title : Option String
  start : Option String
  end_ : Option String
  description : Option String
deriving Repr, DecidableEq

/-- Truthiness of an optional string under dict.get. -/
def truthyOpt : Option String → Bool
  | some s => s ≠ ""
  | none => false

/-- An HTTP-level response of the command route: a JSON body with status 200,
or an error body with an explicit status code. -/
inductive HttpResp where
  | ok (r : CmdResult)
  | httpError (code : Nat) (message : String)
deriving Repr, DecidableEq

/-- The creation HTTP route of the server: reject an empty command, surface
any adapter failure as a 500 error, surface an incomplete adapter payload as
a 500 error, and otherwise run the structured-command operation on the
adapter payload. The local parser is never consulted on this path. -/
def calendar_command (command : String) (ollama : OllamaPayload) (env : ExecEnv) : HttpResp :=
  if command = "" then .httpError 400 "No command provided"
  else if truthyOpt ollama.error then
    .httpError 500 ("Ollama parsing failed: " ++ ollama.error.getD "")
  else if !truthyOpt ollama.title || !truthyOpt ollama.start then
    .httpError 500 "Ollama parsing returned incomplete payload"
  else
    .ok (process_structured_command env
      ⟨ollama.title, ollama.start, ollama.end_, ollama.description⟩)

/-- The observable state of the singleton page handle. -/
inductive PageLive where
  | live
  | closed
  | probeRaises
deriving Repr, DecidableEq

/-- The session fields that the lifecycle operations consult. -/
structure AgentState where
  page : Option PageLive
  is_authenticated : Bool
deriving Repr, DecidableEq

/-- Outcome of one persistent-context launch attempt. -/
inductive LaunchOutcome where
  | success
  | timeoutErr
  | crash (msg : String)
deriving Repr, DecidableEq

/-- Shape of the optional cookie-seed file: undecodable JSON, a bare cookie
array, an object with a cookies array, or other JSON. -/
inductive CookieFile where
  | badJson
  | bareList (n : Nat)
  | objList (n : Nat)
  | otherJson
deriving Repr, DecidableEq

/-- The launch environment of one initialization call: whether the configured
browser executable exists, the outcome of the first and of the retried
launch, the cookie-seed file, and the outcome of the post-launch steps. -/
structure InitEnv where
  execExists : Bool
  attempt1 : LaunchOutcome
  attempt2 : LaunchOutcome
  cookieFile : Option CookieFile
  pagesPresent : Bool
  navTimeout : Bool
  authProbeOk : Bool
  saveStateOk : Bool
deriving Repr, DecidableEq

/-- Observable side effects of one initialization call: persistent-context
launch calls, cookie-injection calls, and whether the profile directory was
deleted and recreated. -/
structure InitTrace where
  launches : Nat
  cookieInjections : Nat
  profileWiped : Bool
deriving Repr, DecidableEq

/-- Outcome of the inner launch helper: a missing executable raises before
the persistent context is launched. -/
def launchOutcome (env : InitEnv) (attempt : LaunchOutcome) : LaunchOutcome :=
  if env.execExists then attempt else .crash "CHROME_EXECUTABLE not found"

/-- Number of add-cookies calls the cookie block performs: one exactly when
the file exists and decodes to a list, directly or under a cookies key;
decoding failures are caught and skipped. -/
def cookieInjectionCount : Option CookieFile → Nat
  | some (.bareList _) => 1
  | some (.objList _) => 1
  | _ => 0

/-- The steps after a context exists: reuse or open a page, navigate with a
non-fatal timeout, wait, probe for the main-content marker to decide
authentication, and persist the session state with failures swallowed. -/
def finishInit (env : InitEnv) (tr : InitTrace) : Except String AgentState × InitTrace :=
  (.ok ⟨some .live, env.authProbeOk⟩, tr)

/-- The initialization of the source: an early return when a page handle
already exists; otherwise one launch attempt whose timeout is fatal with no
retry, whose other failures wipe the profile and retry the launch exactly
once without the cookie block, and whose success runs the cookie block before
the shared post-launch steps. -/
def initializeAgent (st : AgentState) (env : InitEnv) : Except String AgentState × InitTrace :=
  match st.page with
  | some _ => (.ok st, ⟨0, 0, false⟩)
  | none =>
    let n1 := if env.execExists then 1 else 0
    match launchOutcome env env.attempt1 with
    | .success =>
      finishInit env ⟨n1, cookieInjectionCount env.cookieFile, false⟩
    | .timeoutErr =>
      (.error "Browser launch timeout", ⟨n1, 0, false⟩)
    | .crash _ =>
      let n2 := n1 + (if env.execExists then 1 else 0)
      match launchOutcome env env.attempt2 with
      | .success => finishInit env ⟨n2, 0, true⟩
      | .timeoutErr => (.error "asyncio.TimeoutError", ⟨n2, 0, true⟩)
      | .crash m2 => (.error m2, ⟨n2, 0, true⟩)

/-- The idempotent readiness operation of the source: initialization is
needed when no page handle exists, the handle is closed, or probing the
handle raises; a live handle returns immediately with no side effects. -/
def ensure_agent_ready (st : AgentState) (env : InitEnv) : Except String AgentState × InitTrace :=
  let needs_init :=
    match st.page with
    | none => true
    | some .live => false
    | some .closed => true
    | some .probeRaises => true
  if needs_init then initializeAgent st env else (.ok st, ⟨0, 0, false⟩)

/-- C2, counterexample. The claim says parsing the text asdkjasd fails with a
no-start-time parse error; on the code it instead succeeds: the heuristic
fallback returns the literal default 2:00 PM, which the date parser resolves,
so an intent with the default title and a 14:00 start is returned. -/
theorem c2_counterexample :
    parse_command ⟨100, 9, 0⟩ "asdkjasd"
      = .ok ⟨"Untitled Event", ⟨100, 14, 0⟩, none⟩ := by
  rfl

/-- C2, amended. For every parse time, the local parse of the text asdkjasd
returns an intent with the default title Untitled Event, a start equal to the
future-preferring resolution of 14:00, and no end; the no-start-time error is
not reached because the heuristic layer always supplies the default 2:00 PM
string, which the date parser resolves. -/
theorem c2_amended_default_intent :
    ∀ (base : PyDateTime),
      parse_command base "asdkjasd"
        = .ok ⟨"Untitled Event", resolveClockFuture base 14 0, none⟩ := by
  intro base
  rfl

/-- C3, counterexample. The claim says the today-listing operation returns a
success with zero events when no event markers are present; on the code the
five-second wait for a marker times out, the exception is caught, and an
error result is returned. -/
theorem c3_counterexample :
    get_today_events ⟨true, true, ⟨100, 9, 0⟩, true, []⟩
      = .error "Failed to retrieve events: Timeout 5000ms exceeded" := by
  rfl

/-- C3, amended. In the ready-authenticated state the today-listing operation
returns a success carrying the extracted markers exactly when at least one
marker renders within the wait bound; when no markers are present the wait
times out and an error result is returned, so a zero-event success is
unreachable. -/
theorem c3_amended_empty_is_error :
    ∀ (env : ExecEnv), env.hasPage = true → env.is_authenticated = true →
      (env.pageEvents = [] →
        get_today_events env = .error "Failed to retrieve events: Timeout 5000ms exceeded")
      ∧ (env.pageEvents ≠ [] →
        get_today_events env = .events env.pageEvents env.pageEvents.length) := by
  intro env hp ha
  constructor
  · intro he
    simp [get_today_events, hp, ha, he]
  · intro he
    simp [get_today_events, hp, ha, he]

/-- C3, witness for the amended theorem at concrete inputs. -/
theorem c3_amended_witness :
    (get_today_events ⟨true, true, ⟨100, 9, 0⟩, true, []⟩
        = .error "Failed to retrieve events: Timeout 5000ms exceeded")
    ∧ (get_today_events ⟨true, true, ⟨100, 9, 0⟩, true, [⟨"Standup", "ev1"⟩]⟩
        = .events [⟨"Standup", "ev1"⟩] 1) :=
  ⟨(c3_amended_empty_is_error ⟨true, true, ⟨100, 9, 0⟩, true, []⟩ rfl rfl).1 rfl,
   (c3_amended_empty_is_error ⟨true, true, ⟨100, 9, 0⟩, true, [⟨"Standup", "ev1"⟩]⟩ rfl rfl).2
     (by decide)⟩

/-- C5. In the ready-authenticated state the event-creation operation returns
a success record carrying the formatted intent fields (title, formatted
start, formatted end when the end is truthy, description) for every intent
and regardless of whether the create-button locator click succeeds: the click
outcome is logged but never consulted. -/
theorem c5_soft_success :
    ∀ (now : PyDateTime) (clickOk : Bool) (evs : List EventEl) (title : String)
      (start_time : TimeVal) (end_time : Option TimeVal) (description : String),
      create_event ⟨true, true, now, clickOk, evs⟩ title start_time end_time description
        = .created ("Event " ++ title ++ " created successfully")
            ⟨title, format_datetime_for_input now start_time,
              (match end_time with
                | some v =>
                  if truthyVal v then some (format_datetime_for_input now v) else none
                | none => none),
              description⟩ := by
  intro now clickOk evs title start_time end_time description
  rfl

/-- C7. The claim and the spec expect the title Dentist from the text
create event called Dentist at 3pm; the code returns the default title: the
lazy capture group of the title pattern is followed only by optional pieces,
so it always matches the empty string and the extracted title is always
empty. The start (15:00 on the parse day, for a morning parse time) and the
absent end match the claim. -/
theorem c7_code_behaviour :
    parse_command ⟨100, 9, 0⟩ "create event called Dentist at 3pm"
      = .ok ⟨"Untitled Event", ⟨100, 15, 0⟩, none⟩
    ∧ extract_title "create event called Dentist at 3pm" = "Untitled Event" := by
  exact ⟨rfl, rfl⟩

/-- C8. The readiness operation is idempotent: when the session already holds
a live page handle, both the readiness operation and the underlying
initialization return the unchanged state with an empty side-effect trace,
performing zero browser launches, zero cookie injections and no profile
wipe. -/
theorem c8_idempotent :
    ∀ (st : AgentState) (env : InitEnv) (p : PageLive), st.page = some p →
      initializeAgent st env = (.ok st, ⟨0, 0, false⟩)
      ∧ (p = .live → ensure_agent_ready st env = (.ok st, ⟨0, 0, false⟩)) := by
  intro st env p hp
  constructor
  · simp [initializeAgent, hp]
  · intro hl
    subst hl
    simp [ensure_agent_ready, hp, initializeAgent]

/-- C8, witness at a concrete live session. -/
theorem c8_idempotent_witness :
    initializeAgent ⟨some .live, true⟩
        ⟨true, .success, .success, none, true, false, true, true⟩
      = (.ok ⟨some .live, true⟩, ⟨0, 0, false⟩)
    ∧ ensure_agent_ready ⟨some .live, true⟩
        ⟨true, .success, .success, none, true, false, true, true⟩
      = (.ok ⟨some .live, true⟩, ⟨0, 0, false⟩) :=
  ⟨(c8_idempotent ⟨some .live, true⟩
      ⟨true, .success, .success, none, true, false, true, true⟩ .live rfl).1,
   (c8_idempotent ⟨some .live, true⟩
      ⟨true, .success, .success, none, true, false, true, true⟩ .live rfl).2 rfl⟩

/-- C9. In the dispatcher, the creation keywords are tested before the read
keywords: whenever the lowercased command contains create, add, schedule or
the localized keyword, the dispatcher takes the creation branch, whatever
else the command contains. -/
theorem c9_create_precedence :
    ∀ (env : ExecEnv) (command : String),
      env.hasPage = true → env.is_authenticated = true →
      (containsSub "create" (lowerStr command) = true
        ∨ containsSub "add" (lowerStr command) = true
        ∨ containsSub "schedule" (lowerStr command) = true
        ∨ containsSub "日程" (lowerStr command) = true) →
      process_voice_command env command = creation_path env command := by
  intro env command hp ha hk
  unfold process_voice_command
  rw [hp, ha]
  have hcond : (containsSub "create" (lowerStr command)
      || containsSub "add" (lowerStr command)
      || containsSub "schedule" (lowerStr command)
      || containsSub "日程" (lowerStr command)) = true := by
    rcases hk with h | h | h | h <;> simp [h]
  simp [hcond]

/-- C9, witness: the command show my schedule today contains both read
keywords and the creation keyword schedule, and is routed to the creation
branch. -/
theorem c9_create_precedence_witness :
    process_voice_command ⟨true, true, ⟨100, 9, 0⟩, true, []⟩ "show my schedule today"
      = creation_path ⟨true, true, ⟨100, 9, 0⟩, true, []⟩ "show my schedule today" :=
  c9_create_precedence ⟨true, true, ⟨100, 9, 0⟩, true, []⟩ "show my schedule today"
    rfl rfl (Or.inr (Or.inr (Or.inl rfl)))

/-- C10. At the structured-command interface, in the ready-authenticated
state, the operation returns an error exactly when the start field is absent
or empty; otherwise it runs the creation operation with the title defaulted
to Untitled Event when absent or empty and the description defaulted to the
empty string when absent. -/
theorem c10_start_only_required :
    ∀ (env : ExecEnv) (p : Payload),
      env.hasPage = true → env.is_authenticated = true →
      ((process_structured_command env p).isError = true
        ↔ (p.start = none ∨ p.start = some ""))
      ∧ (∀ s, p.start = some s → s ≠ "" →
          process_structured_command env p
            = create_event env (pyOrStr p.title "Untitled Event") (.str s)
                (p.end_.map TimeVal.str) (p.description.getD "")) := by
  intro env p hp ha
  have hne : (!env.hasPage || !env.is_authenticated) = false := by
    rw [hp, ha]
    rfl
  constructor
  · constructor
    · intro herr
      unfold process_structured_command at herr
      rw [hne] at herr
      simp only [Bool.false_eq_true, if_false] at herr
      cases hs : p.start with
      | none => exact Or.inl rfl
      | some s =>
        rw [hs] at herr
        by_cases he : s = ""
        · exact Or.inr (by rw [he])
        · simp only [he, if_false] at herr
          unfold create_event at herr
          rw [hne] at herr
          simp [CmdResult.isError] at herr
    · intro hs
      unfold process_structured_command
      rw [hne]
      simp only [Bool.false_eq_true, if_false]
      rcases hs with h | h <;> simp [h, CmdResult.isError]
  · intro s hs hne2
    unfold process_structured_command
    rw [hne, hs]
    simp [hne2]

/-- C10, witness at a concrete payload with no title, no description and a
nonempty start. -/
theorem c10_start_only_required_witness :
    ((process_structured_command ⟨true, true, ⟨100, 9, 0⟩, true, []⟩
        ⟨none, some "3pm", none, none⟩).isError = true
      ↔ ((some "3pm" : Option String) = none ∨ (some "3pm" : Option String) = some ""))
    ∧ process_structured_command ⟨true, true, ⟨100, 9, 0⟩, true, []⟩
        ⟨none, some "3pm", none, none⟩
      = create_event ⟨true, true, ⟨100, 9, 0⟩, true, []⟩ "Untitled Event" (.str "3pm")
          none "" :=
  ⟨(c10_start_only_required ⟨true, true, ⟨100, 9, 0⟩, true, []⟩
      ⟨none, some "3pm", none, none⟩ rfl rfl).1,
   (c10_start_only_required ⟨true, true, ⟨100, 9, 0⟩, true, []⟩
      ⟨none, some "3pm", none, none⟩ rfl rfl).2 "3pm" rfl (by decide)⟩

/-- C1, counterexample. The claim says the creation path falls back to the
local parser on adapter failure for any input the local parser alone can
resolve; on the code the route surfaces the adapter failure as an HTTP 500
response, even though the local parser resolves the same input (second
conjunct). -/
theorem c1_counterexample :
    calendar_command "create event called Dentist at 3pm"
        ⟨some "connection refused", none, none, none, none⟩
        ⟨true, true, ⟨100, 9, 0⟩, true, []⟩
      = .httpError 500 "Ollama parsing failed: connection refused"
    ∧ parse_command ⟨100, 9, 0⟩ "create event called Dentist at 3pm"
      = .ok ⟨"Untitled Event", ⟨100, 15, 0⟩, none⟩ := by
  exact ⟨rfl, rfl⟩

/-- C1, amended. When the external parse adapter fails on a nonempty command
(its result carries a nonempty error field), the creation HTTP route returns
an HTTP 500 error to the caller; no fallback to the local parser occurs on
this path. -/
theorem c1_amended_error_surfaces :
    ∀ (command msg : String) (t s e d : Option String) (env : ExecEnv),
      command ≠ "" → msg ≠ "" →
      calendar_command command ⟨some msg, t, s, e, d⟩ env
        = .httpError 500 ("Ollama parsing failed: " ++ msg) := by
  intro command msg t s e d env hc hm
  unfold calendar_command
  simp [hc, truthyOpt, hm]

/-- C1, witness for the amended theorem at a concrete failing adapter call. -/
theorem c1_amended_error_surfaces_witness :
    calendar_command "create event tomorrow at 2 PM"
        ⟨some "timeout", some "x", some "y", none, none⟩
        ⟨true, true, ⟨100, 9, 0⟩, true, []⟩
      = .httpError 500 ("Ollama parsing failed: " ++ "timeout") :=
  c1_amended_error_surfaces "create event tomorrow at 2 PM" "timeout"
    (some "x") (some "y") none none ⟨true, true, ⟨100, 9, 0⟩, true, []⟩
    (by decide) (by decide)

/-- C4, counterexample. The claim says cookie injection from the configured
cookie file is still performed on the corrupted-profile retry; on the code
the retry launches without the cookie block, so a failing first launch with a
cookie file present ends with zero cookie-injection calls even though the
retry succeeds. -/
theorem c4_counterexample :
    initializeAgent ⟨none, false⟩
        ⟨true, .crash "profile corrupted", .success, some (.bareList 3), true, false,
          true, true⟩
      = (.ok ⟨some .live, true⟩, ⟨2, 0, true⟩) := by
  rfl

/-- C4, amended. On a launch exception other than a timeout, the agent wipes
the profile directory and retries the launch exactly once, with no cookie
injection on the retry; a failure of the retry propagates as fatal and no
third attempt occurs. A timeout of the first launch is fatal immediately,
with no retry at all. -/
theorem c4_amended_retry_no_cookies :
    ∀ (st : AgentState) (env : InitEnv), st.page = none → env.execExists = true →
      ((∀ m, env.attempt1 = .crash m →
          (initializeAgent st env).2 = ⟨2, 0, true⟩
          ∧ (env.attempt2 = .success →
              (initializeAgent st env).1 = .ok ⟨some .live, env.authProbeOk⟩)
          ∧ (env.attempt2 = .timeoutErr →
              (initializeAgent st env).1 = .error "asyncio.TimeoutError")
          ∧ (∀ m2, env.attempt2 = .crash m2 →
              (initializeAgent st env).1 = .error m2))
        ∧ (env.attempt1 = .timeoutErr →
            (initializeAgent st env) = (.error "Browser launch timeout", ⟨1, 0, false⟩))) := by
  intro st env hp hexec
  constructor
  · intro m h1
    have hbase : initializeAgent st env
        = (match launchOutcome env env.attempt2 with
            | .success => finishInit env ⟨2, 0, true⟩
            | .timeoutErr => (.error "asyncio.TimeoutError", ⟨2, 0, true⟩)
            | .crash m2 => (.error m2, ⟨2, 0, true⟩)) := by
      unfold initializeAgent
      rw [hp]
      simp only [launchOutcome, hexec, h1, if_true]
    refine ⟨?_, ?_, ?_, ?_⟩
    · rw [hbase]
      cases h2 : env.attempt2 <;> simp [launchOutcome, hexec, h2, finishInit]
    · intro h2
      rw [hbase]
      simp [launchOutcome, hexec, h2, finishInit]
    · intro h2
      rw [hbase]
      simp [launchOutcome, hexec, h2]
    · intro m2 h2
      rw [hbase]
      simp [launchOutcome, hexec, h2]
  · intro h1
    unfold initializeAgent
    rw [hp]
    simp only [launchOutcome, hexec, h1, if_true]

/-- C4, witness for the amended theorem at concrete environments: a crash
then successful retry, a crash then crashing retry, and a first-launch
timeout. -/
theorem c4_amended_retry_no_cookies_witness :
    (initializeAgent ⟨none, false⟩
        ⟨true, .crash "corrupt", .success, some (.objList 2), true, false, false, true⟩).2
      = ⟨2, 0, true⟩
    ∧ (initializeAgent ⟨none, false⟩
        ⟨true, .crash "corrupt", .crash "still corrupt", some (.objList 2), true, false,
          false, true⟩).1
      = .error "still corrupt"
    ∧ initializeAgent ⟨none, false⟩
        ⟨true, .timeoutErr, .success, some (.objList 2), true, false, false, true⟩
      = (.error "Browser launch timeout", ⟨1, 0, false⟩) :=
  ⟨((c4_amended_retry_no_cookies ⟨none, false⟩
      ⟨true, .crash "corrupt", .success, some (.objList 2), true, false, false, true⟩
      rfl rfl).1 "corrupt" rfl).1,
   (((c4_amended_retry_no_cookies ⟨none, false⟩
      ⟨true, .crash "corrupt", .crash "still corrupt", some (.objList 2), true, false,
        false, true⟩
      rfl rfl).1 "corrupt" rfl).2.2.2 "still corrupt" rfl),
   ((c4_amended_retry_no_cookies ⟨none, false⟩
      ⟨true, .timeoutErr, .success, some (.objList 2), true, false, false, true⟩
      rfl rfl).2 rfl)⟩

/-- C6, counterexample. The claim says every resolved from-to window yields a
start strictly before its end; on the code the window from 3pm to 2pm parsed
at 08:00 resolves both endpoints on the same day, giving a start at 15:00
after the end at 14:00. -/
theorem c6_counterexample :
    parse_command ⟨100, 8, 0⟩ "meeting from 3pm to 2pm"
      = .ok ⟨"Untitled Event", ⟨100, 15, 0⟩, some ⟨100, 14, 0⟩⟩
    ∧ ¬ (PyDateTime.toMinutes ⟨100, 15, 0⟩ < PyDateTime.toMinutes ⟨100, 14, 0⟩) := by
  exact ⟨rfl, by decide⟩

/-- C6, amended. The parser does not enforce start before end on explicit
windows; what holds is conditional: when the window search matches and both
endpoint phrases resolve to the same day with the first clock time strictly
earlier than the second, the parsed intent carries exactly those endpoints
and its start is strictly before its end. -/
theorem c6_amended_ordered_windows :
    ∀ (base : PyDateTime) (command : String) (e1 e2 : String) (d1 d2 : PyDateTime),
      findWindow (loweredText command) = some (e1, e2) →
      dateparserParse base (hintPrefix (loweredText command) ++ e1) = some d1 →
      dateparserParse base (hintPrefix (loweredText command) ++ e2) = some d2 →
      d1.day = d2.day →
      d1.clockMinutes < d2.clockMinutes →
      parse_command base command = .ok ⟨extract_title command, d1, some d2⟩
      ∧ d1.toMinutes < d2.toMinutes := by
  intro base command e1 e2 d1 d2 hw h1 h2 hday hclock
  constructor
  · unfold parse_command
    simp only [hw, h1, h2]
  · have hm1 : d1.toMinutes = d1.day * 1440 + d1.clockMinutes := by
      simp [PyDateTime.toMinutes, PyDateTime.clockMinutes]
      ring
    have hm2 : d2.toMinutes = d2.day * 1440 + d2.clockMinutes := by
      simp [PyDateTime.toMinutes, PyDateTime.clockMinutes]
      ring
    rw [hm1, hm2, hday]
    omega

/-- C6, witness for the amended theorem at a concrete ordered window. -/
theorem c6_amended_ordered_windows_witness :
    parse_command ⟨100, 8, 0⟩ "meeting from 9am to 10am"
      = .ok ⟨extract_title "meeting from 9am to 10am", ⟨100, 9, 0⟩, some ⟨100, 10, 0⟩⟩
    ∧ PyDateTime.toMinutes ⟨100, 9, 0⟩ < PyDateTime.toMinutes ⟨100, 10, 0⟩ :=
  c6_amended_ordered_windows ⟨100, 8, 0⟩ "meeting from 9am to 10am" "9am" "10am"
    ⟨100, 9, 0⟩ ⟨100, 10, 0⟩ rfl rfl rfl rfl (by decide)

end VGCH
